import Mathlib

/-!
Shallow embedding of the PDF report-splitting engine (`src/app.py`):
the rule-based code extractor (`extract_code_by_rule`), the hybrid
resolver (`extract_code_hybrid`), the filename derivation
(`generate_filename`) and the page-grouping scan of `process_pdf`.

External collaborators (the PDF text extractor and the AI backend) are
modelled as data carried by each page: `full_text` is the page's whole
extracted text, `region_text` the text of the fixed top-left scan
rectangle (`none` models an extraction error, which the Python code
swallows via `try/except`), and `ai` is the observable outcome of the
AI-call-and-parse pipeline for the page (failure, or a parsed JSON
object whose optional `code` field is recorded).
-/

set_option maxRecDepth 100000

namespace App

/-- Outcome of one AI fallback interaction for a page: `fail` models any
exception in the try-block of the AI branch (network failure after
retries, JSON decode error, image extraction error); `parsed d` models a
successful parse of the reply into a JSON object whose `code` field is
`d` (`none` when the field is absent). -/
inductive AIOutcome where
  | fail : AIOutcome
  | parsed : Option String → AIOutcome
  deriving DecidableEq, Repr

/-- One page of the input document, together with the behaviour of the
external collaborators on it. -/
structure PageInput where
  full_text : String
  region_text : Option String
  ai : AIOutcome
  deriving DecidableEq, Repr

/-- Out-of-range page accesses never happen in the scan; this default
only makes `List.getD` total. -/
def defaultPage : PageInput := ⟨"", none, AIOutcome.fail⟩

/-- Whether the char list `n` is a prefix of `h`. -/
def isPrefixL : List Char → List Char → Bool
  | [], _ => true
  | _ :: _, [] => false
  | a :: as, b :: bs => (a == b) && isPrefixL as bs

/-- Python's `needle in hay` on strings, over char lists: `needle`
occurs contiguously in `hay`. -/
def containsSeg : List Char → List Char → Bool
  | [], needle => needle.isEmpty
  | h :: t, needle => isPrefixL needle (h :: t) || containsSeg t needle

/-- Python's `needle in hay` substring test. -/
def strContains (hay needle : String) : Bool :=
  containsSeg hay.data needle.data

/-- Trailer-page check of app.py line 153:
`"End of Report" in page_text or "Grand Total" in page_text`. -/
def isTrailerText (t : String) : Bool :=
  strContains t "End of Report" || strContains t "Grand Total"

/-- Python regex word character `\w` (ASCII fragment): letter, digit or
underscore. -/
def isWordChar (c : Char) : Bool := c.isAlphanum || c == '_'

/-- A `\b` word boundary holds before the match: start of string or a
non-word character. -/
def boundaryBefore : Option Char → Bool
  | none => true
  | some p => !isWordChar p

/-- A `\b` word boundary holds after the match: end of string or a
non-word character. -/
def boundaryAfter : List Char → Bool
  | [] => true
  | d :: _ => !isWordChar d

/-- Model of `re.findall(r'\b[A-Z]{3}\b', s)` (app.py line 64): all
non-overlapping runs of exactly three uppercase letters bounded by word
edges, in left-to-right scan order. `prev` is the character just before
the current position (`none` at the start of the string). -/
def scanTriples : Option Char → List Char → List (List Char)
  | _, [] => []
  | prev, c1 :: rest =>
    match rest with
    | c2 :: c3 :: rest2 =>
      if c1.isUpper && c2.isUpper && c3.isUpper &&
          boundaryBefore prev && boundaryAfter rest2 then
        [c1, c2, c3] :: scanTriples (some c3) rest2
      else
        scanTriples (some c1) (c2 :: c3 :: rest2)
    | _ => []

/-- Python `str.strip()` (ASCII whitespace fragment). -/
def pyStrip (l : List Char) : List Char :=
  ((l.dropWhile Char.isWhitespace).reverse.dropWhile Char.isWhitespace).reverse

/-- Python `text_in_box.upper().replace('\n', ' ').strip()` (app.py line 54). -/
def cleanedRegion (t : String) : List Char :=
  pyStrip ((t.data.map Char.toUpper).map (fun c => if c == '\n' then ' ' else c))

/-- The rule extractor's blacklist of known false positives
(app.py lines 57-61). -/
def BLACKLIST : List String :=
  ["THE", "AND", "RPT", "ALL", "USD", "PDF", "DAT", "TIM", "PAG", "REC",
   "OUT", "STA", "FEE", "REP", "GRA", "TOT", "END", "SUM", "UNK", "WHK",
   "ACC", "NO.", "NUM", "BER", "COU", "UNT"]

/-- The 3-letter candidates found in the cleaned scan region of a page,
in scan order (`[]` on extraction error). -/
def ruleCandidates (p : PageInput) : List String :=
  match p.region_text with
  | none => []
  | some t => (scanTriples none (cleanedRegion t)).map String.mk

/-- Model of `extract_code_by_rule` (app.py lines 45-76): clean the scan-region
text, find all 3-letter candidates, drop blacklisted ones, return the
first survivor; `none` when no candidate survives or on any extraction
error (the `except` branch, modelled by `region_text = none`). -/
def extract_code_by_rule (p : PageInput) : Option String :=
  match p.region_text with
  | none => none
  | some t =>
    let found := (scanTriples none (cleanedRegion t)).map String.mk
    let valid_codes := found.filter (fun m => !BLACKLIST.contains m)
    valid_codes.head?

/-- The post-hoc blacklist applied to the AI's answer
(app.py line 114). -/
def AI_DECOYS : List String := ["OUT", "REP", "FEE", "WHK", "UNK"]

/-- The AI-fallback branch of `extract_code_hybrid` (app.py lines
103-119): short-circuit to `"UNKNOWN"` without an AI call when no key is
configured; otherwise call the AI, treat any exception as `"UNKNOWN"`,
read the `code` field (defaulting to `"UNKNOWN"`), and blacklist known
decoys. The boolean records whether the AI backend was consulted. -/
def aiFallback (key : String) (ai : AIOutcome) : String × Bool :=
  if key = "" then ("UNKNOWN", false)
  else
    match ai with
    | AIOutcome.fail => ("UNKNOWN", true)
    | AIOutcome.parsed d =>
      let ai_code := d.getD "UNKNOWN"
      if AI_DECOYS.contains ai_code then ("UNKNOWN", true) else (ai_code, true)

/-- Model of `extract_code_hybrid` (app.py lines 96-119): rule first (returned
when truthy, i.e. a non-empty string), AI fallback otherwise. The
boolean records whether the AI backend was consulted. -/
def extract_code_hybrid (p : PageInput) (key : String) : String × Bool :=
  match extract_code_by_rule p with
  | some c => if c = "" then aiFallback key p.ai else (c, false)
  | none => aiFallback key p.ai

/-- The per-page classification result the grouping scan consumes. -/
def resolverCode (p : PageInput) (key : String) : String :=
  (extract_code_hybrid p key).1

/-- Model of `generate_filename` (app.py lines 121-125). -/
def generate_filename (code : String) (page_text : String) : String :=
  if strContains page_text "Outstanding" then
    "Rpt 614-" ++ code ++ " Outstanding.pdf"
  else
    "Rpt 615-" ++ code ++ " MF.pdf"

/-- One entry of `page_groups` (the dicts built in `process_pdf`): the
`code` key holds `last_code`, which Python types as a string or `None`. -/
structure RawGroup where
  code : Option String
  pages : List Nat
  text : String
  deriving DecidableEq, Repr

/-- The scan-phase state of `process_pdf` (app.py lines 141-143). -/
structure ScanState where
  page_groups : List RawGroup
  current_group : List Nat
  last_code : Option String
  deriving DecidableEq, Repr

/-- Python truthiness of `last_code` (a string or `None`): truthy iff it
is a non-empty string. -/
def lastTruthy : Option String → Bool
  | none => false
  | some s => !(s == "")

/-- Closing a group (app.py lines 155, 175, 187): the dict records the
running code, the collected page indices, and the full text of the
group's first page (`doc[current_group[0]].get_text()`). -/
def closeGroup (doc : List PageInput) (code : Option String) (pages : List Nat) :
    RawGroup :=
  ⟨code, pages, (doc.getD (pages.headD 0) defaultPage).full_text⟩

/-- The two continuity-repair steps of `process_pdf` (app.py lines
160-169) applied to the resolver's result for a page: an `"UNKNOWN"`
code inherits a truthy `last_code`; an `"UNKNOWN"` code with
`last_code is None` becomes `"Unclassified"`. -/
def repairedCode (key : String) (page : PageInput) (last : Option String) : String :=
  let code0 := resolverCode page key
  let code1 :=
    if code0 = "UNKNOWN" ∧ lastTruthy last = true then last.getD ""
    else code0
  if code1 = "UNKNOWN" ∧ last = none then "Unclassified" else code1

/-- One iteration of the scan loop of `process_pdf` (app.py lines
146-181) on page index `i`. -/
def scanStep (key : String) (doc : List PageInput) (s : ScanState) (i : Nat) :
    ScanState :=
  let page := doc.getD i defaultPage
  if isTrailerText page.full_text then
    if s.current_group.isEmpty then s
    else
      ⟨s.page_groups ++ [closeGroup doc s.last_code s.current_group], [], none⟩
  else
    let code := repairedCode key page s.last_code
    if some code ≠ s.last_code then
      ⟨(if s.current_group.isEmpty then s.page_groups
        else s.page_groups ++ [closeGroup doc s.last_code s.current_group]),
       [i], some code⟩
    else
      ⟨s.page_groups, s.current_group ++ [i], s.last_code⟩

/-- The scan loop over a list of page indices. -/
def scanList (key : String) (doc : List PageInput) : List Nat → ScanState → ScanState
  | [], s => s
  | i :: rest, s => scanList key doc rest (scanStep key doc s i)

/-- Finalization after the loop (app.py lines 184-187): a still-open
group is closed under `last_code if last_code else "Unclassified"`. -/
def finalizeScan (doc : List PageInput) (s : ScanState) : List RawGroup :=
  if s.current_group.isEmpty then s.page_groups
  else
    let final_code := if lastTruthy s.last_code = true then s.last_code.getD ""
                      else "Unclassified"
    s.page_groups ++ [closeGroup doc (some final_code) s.current_group]

/-- The groups produced by the scan pass of `process_pdf`, before the
empty-input guard. -/
def scanFinalized (doc : List PageInput) (key : String) : List RawGroup :=
  finalizeScan doc (scanList key doc (List.range doc.length) ⟨[], [], none⟩)

/-- The groups `process_pdf` goes on to emit files for, after the
empty-input guard (app.py lines 192-195): when the scan produced no
group, one catch-all `"ALL"` group spanning every page is appended. -/
def emittedGroups (doc : List PageInput) (key : String) : List RawGroup :=
  let gs := scanFinalized doc key
  if gs.isEmpty then [⟨some "ALL", List.range doc.length, ""⟩] else gs

/-- Python's f-string rendering of the group code (a string or `None`). -/
def codeStr : Option String → String
  | none => "None"
  | some s => s

/-- Python `min(pages)` for a non-empty list. -/
def pyMin (l : List Nat) : Nat := l.foldl Nat.min (l.headD 0)

/-- Python `max(pages)` for a non-empty list. -/
def pyMax (l : List Nat) : Nat := l.foldl Nat.max (l.headD 0)

/-- The metadata record `process_pdf` appends to `generated_files` for
one group (app.py lines 215-223); the binary PDF content itself is
produced by the external PDF library and not modelled. -/
structure OutputFile where
  filename : String
  code : Option String
  page_count : Nat
  page_range : String
  deriving DecidableEq, Repr

/-- Building the output record of one group (app.py lines 201-223). -/
def toOutputFile (g : RawGroup) : OutputFile :=
  ⟨generate_filename (codeStr g.code) g.text, g.code, g.pages.length,
   toString (pyMin g.pages + 1) ++ "-" ++ toString (pyMax g.pages + 1)⟩

/-- The file-generation pass of `process_pdf` (app.py lines 201-223):
one output record per emitted group, skipping groups with an empty page
list (`if not pages: continue`). -/
def outputFiles (doc : List PageInput) (key : String) : List OutputFile :=
  (emittedGroups doc key).filterMap
    (fun g => if g.pages.isEmpty then none else some (toOutputFile g))

/-- All page indices covered by a list of groups, in order. -/
def allPages (gs : List RawGroup) : List Nat :=
  gs.flatMap RawGroup.pages

/-- The indices of the trailer pages of a document. -/
def trailerIndices (doc : List PageInput) : List Nat :=
  (List.range doc.length).filter
    (fun i => isTrailerText (doc.getD i defaultPage).full_text)

/-- A 3-letter all-uppercase token, the shape of an institution code. -/
def is3Upper (s : String) : Bool :=
  (s.length == 3) && s.data.all Char.isUpper

/-- The `code` field of the JSON object the AI reply parses to, when the
AI interaction succeeds (`data.get('code', 'UNKNOWN')`). -/
def aiCodeOf (p : PageInput) : Option String :=
  match p.ai with
  | AIOutcome.fail => none
  | AIOutcome.parsed d => some (d.getD "UNKNOWN")

/-! ## Shape lemmas about the rule extractor -/

theorem scanTriples_shape : ∀ (prev : Option Char) (l : List Char),
    ∀ m ∈ scanTriples prev l, m.length = 3 ∧ m.all Char.isUpper = true
  | _, [] => by simp [scanTriples]
  | _, [c1] => by simp [scanTriples]
  | _, [c1, c2] => by simp [scanTriples]
  | prev, c1 :: c2 :: c3 :: rest2 => by
    intro m hm
    rw [scanTriples] at hm
    by_cases hc : (c1.isUpper && c2.isUpper && c3.isUpper &&
        boundaryBefore prev && boundaryAfter rest2) = true
    · rw [if_pos hc] at hm
      rcases List.mem_cons.mp hm with h3 | htail
      · subst h3
        simp only [Bool.and_eq_true] at hc
        simp [List.all_cons, hc.1.1.1.1, hc.1.1.1.2, hc.1.1.2]
      · exact scanTriples_shape (some c3) rest2 m htail
    · rw [if_neg hc] at hm
      exact scanTriples_shape (some c1) (c2 :: c3 :: rest2) m hm

theorem rule_code_is3Upper (p : PageInput) (c : String)
    (h : extract_code_by_rule p = some c) : is3Upper c = true := by
  unfold extract_code_by_rule at h
  cases hr : p.region_text with
  | none => rw [hr] at h; exact absurd h (by simp)
  | some t =>
    rw [hr] at h
    simp only at h
    have hc : c ∈ ((scanTriples none (cleanedRegion t)).map String.mk).filter
        (fun m => !BLACKLIST.contains m) := by
      cases hl : ((scanTriples none (cleanedRegion t)).map String.mk).filter
          (fun m => !BLACKLIST.contains m) with
      | nil => rw [hl] at h; exact absurd h (by simp)
      | cons a as =>
        rw [hl] at h
        simp only [List.head?_cons, Option.some.injEq] at h
        rw [← h]; exact List.mem_cons_self a as
    have hmem := List.mem_filter.mp hc
    rcases List.mem_map.mp hmem.1 with ⟨m, hms, hmk⟩
    rcases scanTriples_shape none (cleanedRegion t) m hms with ⟨hlen, hall⟩
    subst hmk
    simp [is3Upper, String.length, hlen, hall]

theorem rule_code_ne_empty (p : PageInput) (c : String)
    (h : extract_code_by_rule p = some c) : c ≠ "" := by
  intro he
  have := rule_code_is3Upper p c h
  rw [he] at this
  simp [is3Upper] at this

theorem rule_code_not_blacklisted (p : PageInput) (c : String)
    (h : extract_code_by_rule p = some c) : c ∉ BLACKLIST := by
  unfold extract_code_by_rule at h
  cases hr : p.region_text with
  | none => rw [hr] at h; exact absurd h (by simp)
  | some t =>
    rw [hr] at h
    simp only at h
    have hc : c ∈ ((scanTriples none (cleanedRegion t)).map String.mk).filter
        (fun m => !BLACKLIST.contains m) := by
      cases hl : ((scanTriples none (cleanedRegion t)).map String.mk).filter
          (fun m => !BLACKLIST.contains m) with
      | nil => rw [hl] at h; exact absurd h (by simp)
      | cons a as =>
        rw [hl] at h
        simp only [List.head?_cons, Option.some.injEq] at h
        rw [← h]; exact List.mem_cons_self a as
    have hmem := List.mem_filter.mp hc
    intro hmemB
    have hcon : BLACKLIST.contains c = true := List.elem_iff.mpr hmemB
    rw [hcon] at hmem
    simp at hmem

/-! ## Bookkeeping lemmas for the grouping scan -/

/-- All page indices a scan state accounts for: those in already-closed
groups followed by those in the open group. -/
def track (s : ScanState) : List Nat :=
  allPages s.page_groups ++ s.current_group

theorem allPages_append (gs1 gs2 : List RawGroup) :
    allPages (gs1 ++ gs2) = allPages gs1 ++ allPages gs2 := by
  simp [allPages]

theorem track_scanStep (key : String) (doc : List PageInput) (s : ScanState)
    (i : Nat) :
    track (scanStep key doc s i) =
      track s ++
        (if isTrailerText (doc.getD i defaultPage).full_text then [] else [i]) := by
  unfold scanStep
  by_cases ht : isTrailerText (doc.getD i defaultPage).full_text = true
  · rw [if_pos ht, if_pos ht]
    by_cases hc : s.current_group.isEmpty = true
    · rw [if_pos hc]
      have : s.current_group = [] := List.isEmpty_iff.mp hc
      simp [track, this]
    · rw [if_neg hc]
      simp [track, allPages_append, allPages, closeGroup]
  · rw [if_neg ht, if_neg ht]
    simp only
    by_cases htr : some (repairedCode key (doc.getD i defaultPage) s.last_code) ≠
        s.last_code
    · rw [if_pos htr]
      by_cases hc : s.current_group.isEmpty = true
      · rw [if_pos hc]
        have : s.current_group = [] := List.isEmpty_iff.mp hc
        simp [track, this]
      · rw [if_neg hc]
        simp [track, allPages_append, allPages, closeGroup]
    · rw [if_neg htr]
      simp [track, List.append_assoc]

theorem track_scanList (key : String) (doc : List PageInput) :
    ∀ (l : List Nat) (s : ScanState),
      track (scanList key doc l s) =
        track s ++
          l.filter (fun i => !isTrailerText (doc.getD i defaultPage).full_text)
  | [], s => by simp [scanList]
  | i :: rest, s => by
    rw [scanList, track_scanList key doc rest, track_scanStep, List.filter_cons]
    cases hx : isTrailerText (doc.getD i defaultPage).full_text
    · simp [List.append_assoc]
    · simp [List.append_assoc]

theorem allPages_finalizeScan (doc : List PageInput) (s : ScanState) :
    allPages (finalizeScan doc s) = track s := by
  unfold finalizeScan
  by_cases hc : s.current_group.isEmpty = true
  · rw [if_pos hc]
    have : s.current_group = [] := List.isEmpty_iff.mp hc
    simp [track, this]
  · rw [if_neg hc]
    simp [track, allPages_append, allPages, closeGroup]

/-- The page indices covered by the scan's groups are exactly the
non-trailer indices, in order. -/
theorem allPages_scanFinalized (doc : List PageInput) (key : String) :
    allPages (scanFinalized doc key) =
      (List.range doc.length).filter
        (fun i => !isTrailerText (doc.getD i defaultPage).full_text) := by
  unfold scanFinalized
  rw [allPages_finalizeScan, track_scanList]
  simp [track, allPages]

/-- Case analysis on the AI-fallback branch: it yields the sentinel or
the parsed reply's `code` field verbatim. -/
theorem aiFallback_cases (key : String) (ai : AIOutcome) :
    (aiFallback key ai).1 = "UNKNOWN" ∨
    (∃ d, ai = AIOutcome.parsed d ∧ (aiFallback key ai).1 = d.getD "UNKNOWN") := by
  by_cases hk : key = ""
  · left; simp [aiFallback, hk]
  · cases ai with
    | fail => left; simp [aiFallback, hk]
    | parsed d =>
      by_cases hd : (d.getD "UNKNOWN") ∈ AI_DECOYS
      · left; simp [aiFallback, hk, hd]
      · right; exact ⟨d, rfl, by simp [aiFallback, hk, hd]⟩

/-! ## Claim theorems -/

/-- C5: precedence law of the hybrid resolver. Whenever the rule
extractor returns a (non-abstaining) code, `extract_code_hybrid` returns
exactly that code with the AI backend not consulted; and whenever the
rule extractor abstains and no credential is configured, it returns the
sentinel `"UNKNOWN"`, again without consulting the AI backend. -/
theorem hybrid_precedence (p : PageInput) (key : String) :
    (∀ c, extract_code_by_rule p = some c →
      extract_code_hybrid p key = (c, false)) ∧
    (extract_code_by_rule p = none → key = "" →
      extract_code_hybrid p key = ("UNKNOWN", false)) := by
  constructor
  · intro c hc
    unfold extract_code_hybrid
    rw [hc]
    simp only
    rw [if_neg (rule_code_ne_empty p c hc)]
  · intro hn hk
    subst hk
    unfold extract_code_hybrid
    rw [hn]
    simp [aiFallback]

/-- Witness for C5 at a page whose scan region reads `APO` (rule
succeeds, AI untouched even with a key) and a page with an extraction
error and no key (sentinel, AI untouched). -/
theorem hybrid_precedence_witness :
    extract_code_hybrid ⟨"t", some "APO", AIOutcome.fail⟩ "K" = ("APO", false) ∧
    extract_code_hybrid ⟨"t", none, AIOutcome.fail⟩ "" = ("UNKNOWN", false) :=
  ⟨(hybrid_precedence ⟨"t", some "APO", AIOutcome.fail⟩ "K").1 "APO" (by decide),
   (hybrid_precedence ⟨"t", none, AIOutcome.fail⟩ "").2 (by decide) rfl⟩

/-- C6: blacklist and abstention of the rule extractor. The result is
the first candidate in scan order that survives the blacklist; a
returned code is never blacklisted; when no candidate survives the
extractor abstains, and it abstains on any extraction error. -/
theorem rule_blacklist_abstains (p : PageInput) :
    extract_code_by_rule p =
      ((ruleCandidates p).filter (fun m => !BLACKLIST.contains m)).head? ∧
    (∀ c, extract_code_by_rule p = some c → c ∉ BLACKLIST) ∧
    ((ruleCandidates p).filter (fun m => !BLACKLIST.contains m) = [] →
      extract_code_by_rule p = none) ∧
    (p.region_text = none → extract_code_by_rule p = none) := by
  have heq : extract_code_by_rule p =
      ((ruleCandidates p).filter (fun m => !BLACKLIST.contains m)).head? := by
    unfold extract_code_by_rule ruleCandidates
    cases p.region_text <;> rfl
  refine ⟨heq, fun c hc => rule_code_not_blacklisted p c hc, fun h => ?_, fun h => ?_⟩
  · rw [heq, h]; rfl
  · unfold extract_code_by_rule; rw [h]

/-- Witness for C6: a scan region holding only blacklisted 3-letter
tokens makes the extractor abstain, and the returned code `APO` of a
clean region is not blacklisted. -/
theorem rule_blacklist_abstains_witness :
    extract_code_by_rule ⟨"t", some "RPT 614 OUT FEE", AIOutcome.fail⟩ = none ∧
    "APO" ∉ BLACKLIST :=
  ⟨(rule_blacklist_abstains ⟨"t", some "RPT 614 OUT FEE", AIOutcome.fail⟩).2.2.1
      (by decide),
   (rule_blacklist_abstains ⟨"t", some "APO", AIOutcome.fail⟩).2.1 "APO" (by decide)⟩

/-- C9 counterexample: the claim says the resolver only ever produces a
3-letter uppercase code or the sentinel, but when the rule abstains and
the AI reply parses to `{"code": "HELLO"}` the resolver returns
`"HELLO"` verbatim, which is neither. -/
theorem resolver_shape_counterexample :
    resolverCode ⟨"t", none, AIOutcome.parsed (some "HELLO")⟩ "K" = "HELLO" ∧
    is3Upper "HELLO" = false ∧ ("HELLO" : String) ≠ "UNKNOWN" := by decide

/-- C9 (amended): the resolver's result is the sentinel `"UNKNOWN"`, a
3-letter uppercase code (the rule path), or the string taken verbatim
from the AI reply's `code` field — the code does not validate the AI's
answer for shape beyond a finite decoy blacklist. -/
theorem resolver_shape_amended (p : PageInput) (key : String) :
    resolverCode p key = "UNKNOWN" ∨ is3Upper (resolverCode p key) = true ∨
    aiCodeOf p = some (resolverCode p key) := by
  unfold resolverCode extract_code_hybrid
  cases hr : extract_code_by_rule p with
  | some c =>
    simp only
    rcases eq_or_ne c "" with hce | hce
    · rw [if_pos hce]
      rcases aiFallback_cases key p.ai with h | ⟨d, hd, h⟩
      · exact Or.inl h
      · refine Or.inr (Or.inr ?_)
        rw [h]
        unfold aiCodeOf
        rw [hd]
    · rw [if_neg hce]
      exact Or.inr (Or.inl (rule_code_is3Upper p c hr))
  | none =>
    simp only
    rcases aiFallback_cases key p.ai with h | ⟨d, hd, h⟩
    · exact Or.inl h
    · refine Or.inr (Or.inr ?_)
      rw [h]
      unfold aiCodeOf
      rw [hd]

/-- C10: the filename contract. The derived filename is
`Rpt 614-{code} Outstanding.pdf` exactly when the representative text
contains the literal substring `"Outstanding"`, and
`Rpt 615-{code} MF.pdf` otherwise. -/
theorem filename_contract (code text : String) :
    (strContains text "Outstanding" = true →
      generate_filename code text = "Rpt 614-" ++ code ++ " Outstanding.pdf") ∧
    (strContains text "Outstanding" = false →
      generate_filename code text = "Rpt 615-" ++ code ++ " MF.pdf") := by
  unfold generate_filename
  constructor
  · intro h; rw [if_pos h]
  · intro h; rw [if_neg (by simp [h])]

/-- Witness for C10 at code `APO`: with `"Outstanding"` present the
filename is `Rpt 614-APO Outstanding.pdf`, otherwise
`Rpt 615-APO MF.pdf`. -/
theorem filename_contract_witness :
    generate_filename "APO" "Reports Outstanding 614" =
      "Rpt 614-APO Outstanding.pdf" ∧
    generate_filename "APO" "monthly fund" = "Rpt 615-APO MF.pdf" :=
  ⟨(filename_contract "APO" "Reports Outstanding 614").1 (by decide),
   (filename_contract "APO" "monthly fund").2 (by decide)⟩

/-- C1 counterexample: on a one-page document whose only page is a
trailer the scan yields zero groups, so the empty-input guard emits the
catch-all group spanning every page — and that trailer page then
belongs to an emitted group, contradicting the claim that trailer pages
belong to no group. -/
theorem no_drop_invariant_counterexample :
    0 ∈ trailerIndices [⟨"End of Report", none, AIOutcome.fail⟩] ∧
    0 ∈ allPages (emittedGroups [⟨"End of Report", none, AIOutcome.fail⟩] "") := by
  decide

/-- C1 (amended): for every document, no page index appears in two
emitted groups (the concatenation of their page lists has no
duplicates), the union of the groups' page indices with the trailer
indices is exactly `{0..N-1}`, and — whenever the scan pass produced at
least one group, i.e. whenever the empty-input guard did not fire —
trailer pages belong to no emitted group. When the guard fires, the
single catch-all group contains every page, trailer pages included. -/
theorem no_drop_invariant (doc : List PageInput) (key : String) :
    (allPages (emittedGroups doc key)).Nodup ∧
    (∀ i, (i ∈ allPages (emittedGroups doc key) ∨ i ∈ trailerIndices doc) ↔
      i ∈ List.range doc.length) ∧
    (scanFinalized doc key ≠ [] →
      ∀ i ∈ allPages (emittedGroups doc key), i ∉ trailerIndices doc) := by
  unfold emittedGroups
  by_cases hg : (scanFinalized doc key).isEmpty = true
  · rw [if_pos hg]
    refine ⟨?_, ?_, ?_⟩
    · simp [allPages, List.nodup_range]
    · intro i
      constructor
      · rintro (hi | hi)
        · simpa [allPages] using hi
        · exact (List.mem_filter.mp hi).1
      · intro hi
        left
        simpa [allPages] using hi
    · intro hne
      exact absurd (List.isEmpty_iff.mp hg) hne
  · rw [if_neg hg]
    have hAP := allPages_scanFinalized doc key
    refine ⟨?_, ?_, ?_⟩
    · rw [hAP]
      exact (List.nodup_range doc.length).filter _
    · intro i
      rw [hAP]
      constructor
      · rintro (hi | hi)
        · exact (List.mem_filter.mp hi).1
        · exact (List.mem_filter.mp hi).1
      · intro hi
        cases ht : isTrailerText (doc.getD i defaultPage).full_text
        · exact Or.inl (List.mem_filter.mpr ⟨hi, by rw [ht]; rfl⟩)
        · exact Or.inr (List.mem_filter.mpr ⟨hi, ht⟩)
    · intro _ i hi hit
      rw [hAP] at hi
      have h1 := (List.mem_filter.mp hi).2
      have h2 := (List.mem_filter.mp hit).2
      rw [h2] at h1
      simp at h1

/-- Witness for C1 (amended) on a two-page document: an `APO` page
followed by a trailer page. The scan emits one group, its page list has
no duplicates, page 0 is covered, and page 0 — a non-trailer page of an
emitted group — is not a trailer index. -/
theorem no_drop_invariant_witness :
    (allPages (emittedGroups [⟨"a", some "APO", AIOutcome.fail⟩,
        ⟨"x End of Report", none, AIOutcome.fail⟩] "")).Nodup ∧
    0 ∈ List.range
      ([⟨"a", some "APO", AIOutcome.fail⟩,
        ⟨"x End of Report", none, AIOutcome.fail⟩] : List PageInput).length ∧
    0 ∉ trailerIndices [⟨"a", some "APO", AIOutcome.fail⟩,
        ⟨"x End of Report", none, AIOutcome.fail⟩] :=
  have h := no_drop_invariant [⟨"a", some "APO", AIOutcome.fail⟩,
      ⟨"x End of Report", none, AIOutcome.fail⟩] ""
  ⟨h.1, (h.2.1 0).mp (Or.inl (by decide)), h.2.2 (by decide) 0 (by decide)⟩

/-- C2: continuity repair. For any four non-trailer pages whose
resolver results are `[a, UNKNOWN, UNKNOWN, b]` (with `a` and `b` real,
distinct, non-empty codes), the scan yields exactly two groups: pages
`0,1,2` under `a` — the two unresolved pages inherit the last
attributed code — then page `3` under `b`. -/
theorem continuity_repair (key a b : String) (pA p1 p2 pB : PageInput)
    (hA : resolverCode pA key = a) (h1 : resolverCode p1 key = "UNKNOWN")
    (h2 : resolverCode p2 key = "UNKNOWN") (hB : resolverCode pB key = b)
    (hta : isTrailerText pA.full_text = false)
    (ht1 : isTrailerText p1.full_text = false)
    (ht2 : isTrailerText p2.full_text = false)
    (htb : isTrailerText pB.full_text = false)
    (haU : a ≠ "UNKNOWN") (hbU : b ≠ "UNKNOWN") (hab : a ≠ b)
    (ha0 : a ≠ "") (hb0 : b ≠ "") :
    scanFinalized [pA, p1, p2, pB] key =
      [⟨some a, [0, 1, 2], pA.full_text⟩, ⟨some b, [3], pB.full_text⟩] := by
  have e0 : scanStep key [pA, p1, p2, pB] ⟨[], [], none⟩ 0 =
      ⟨[], [0], some a⟩ := by
    simp [scanStep, repairedCode, lastTruthy, hta, hA, haU]
  have e1 : scanStep key [pA, p1, p2, pB] ⟨[], [0], some a⟩ 1 =
      ⟨[], [0, 1], some a⟩ := by
    simp [scanStep, repairedCode, lastTruthy, ht1, h1, ha0]
  have e2 : scanStep key [pA, p1, p2, pB] ⟨[], [0, 1], some a⟩ 2 =
      ⟨[], [0, 1, 2], some a⟩ := by
    simp [scanStep, repairedCode, lastTruthy, ht2, h2, ha0]
  have e3 : scanStep key [pA, p1, p2, pB] ⟨[], [0, 1, 2], some a⟩ 3 =
      ⟨[⟨some a, [0, 1, 2], pA.full_text⟩], [3], some b⟩ := by
    simp [scanStep, repairedCode, lastTruthy, closeGroup, htb, hB, hbU,
      Ne.symm hab, ha0]
  have hrange : List.range ([pA, p1, p2, pB] : List PageInput).length =
      [0, 1, 2, 3] := rfl
  unfold scanFinalized
  rw [hrange]
  simp only [scanList]
  rw [e0, e1, e2, e3]
  simp [finalizeScan, lastTruthy, closeGroup, hb0]

/-- Witness for C2: concrete pages whose scan regions read `APO`,
nothing, nothing, `FPL` (no key configured) group as
`[0,1,2]` under `APO` then `[3]` under `FPL`. -/
theorem continuity_repair_witness :
    scanFinalized [⟨"a text", some "APO", AIOutcome.fail⟩,
      ⟨"u text", none, AIOutcome.fail⟩, ⟨"u text", none, AIOutcome.fail⟩,
      ⟨"b text", some "FPL", AIOutcome.fail⟩] "" =
      [⟨some "APO", [0, 1, 2], "a text"⟩, ⟨some "FPL", [3], "b text"⟩] :=
  continuity_repair "" "APO" "FPL" _ _ _ _ (by decide) (by decide) (by decide)
    (by decide) (by decide) (by decide) (by decide) (by decide) (by decide)
    (by decide) (by decide) (by decide) (by decide)

/-- C3: leading-unresolved handling. For any three non-trailer pages
whose resolver results are `[UNKNOWN, UNKNOWN, a]` with no preceding
attributed code, the scan yields one `Unclassified` group of the first
two pages and then a separate `a` group — never merged. -/
theorem leading_unresolved (key a : String) (p1 p2 pA : PageInput)
    (h1 : resolverCode p1 key = "UNKNOWN") (h2 : resolverCode p2 key = "UNKNOWN")
    (hA : resolverCode pA key = a)
    (ht1 : isTrailerText p1.full_text = false)
    (ht2 : isTrailerText p2.full_text = false)
    (hta : isTrailerText pA.full_text = false)
    (haU : a ≠ "UNKNOWN") (haC : a ≠ "Unclassified") (ha0 : a ≠ "") :
    scanFinalized [p1, p2, pA] key =
      [⟨some "Unclassified", [0, 1], p1.full_text⟩, ⟨some a, [2], pA.full_text⟩] := by
  have e0 : scanStep key [p1, p2, pA] ⟨[], [], none⟩ 0 =
      ⟨[], [0], some "Unclassified"⟩ := by
    simp [scanStep, repairedCode, lastTruthy, ht1, h1]
  have e1 : scanStep key [p1, p2, pA] ⟨[], [0], some "Unclassified"⟩ 1 =
      ⟨[], [0, 1], some "Unclassified"⟩ := by
    simp [scanStep, repairedCode, lastTruthy, ht2, h2]
  have e2 : scanStep key [p1, p2, pA] ⟨[], [0, 1], some "Unclassified"⟩ 2 =
      ⟨[⟨some "Unclassified", [0, 1], p1.full_text⟩], [2], some a⟩ := by
    simp [scanStep, repairedCode, lastTruthy, closeGroup, hta, hA, haU, haC]
  have hrange : List.range ([p1, p2, pA] : List PageInput).length =
      [0, 1, 2] := rfl
  unfold scanFinalized
  rw [hrange]
  simp only [scanList]
  rw [e0, e1, e2]
  simp [finalizeScan, lastTruthy, closeGroup, ha0]

/-- Witness for C3: two pages with failed extraction and no key followed
by an `APO` page group as `[0,1]` under `Unclassified` then `[2]` under
`APO`. -/
theorem leading_unresolved_witness :
    scanFinalized [⟨"u1 text", none, AIOutcome.fail⟩,
      ⟨"u2 text", none, AIOutcome.fail⟩,
      ⟨"a text", some "APO", AIOutcome.fail⟩] "" =
      [⟨some "Unclassified", [0, 1], "u1 text"⟩, ⟨some "APO", [2], "a text"⟩] :=
  leading_unresolved "" "APO" _ _ _ (by decide) (by decide) (by decide)
    (by decide) (by decide) (by decide) (by decide) (by decide) (by decide)

/-- C4: trailer isolation. For pages whose resolver results are
`[a, a, -, b]` with the third page a trailer, the scan closes the open
`a` group at the trailer, resets the running code, excludes the trailer
page from every group, and opens a fresh `b` group: the result is a
two-page `a` group and a one-page `b` group, and page `2` is in
neither. -/
theorem trailer_isolation (key a b : String) (pA1 pA2 pT pB : PageInput)
    (hA1 : resolverCode pA1 key = a) (hA2 : resolverCode pA2 key = a)
    (hB : resolverCode pB key = b)
    (ht1 : isTrailerText pA1.full_text = false)
    (ht2 : isTrailerText pA2.full_text = false)
    (htT : isTrailerText pT.full_text = true)
    (htb : isTrailerText pB.full_text = false)
    (haU : a ≠ "UNKNOWN") (hbU : b ≠ "UNKNOWN")
    (ha0 : a ≠ "") (hb0 : b ≠ "") :
    scanFinalized [pA1, pA2, pT, pB] key =
      [⟨some a, [0, 1], pA1.full_text⟩, ⟨some b, [3], pB.full_text⟩] ∧
    2 ∉ allPages (scanFinalized [pA1, pA2, pT, pB] key) := by
  have e0 : scanStep key [pA1, pA2, pT, pB] ⟨[], [], none⟩ 0 =
      ⟨[], [0], some a⟩ := by
    simp [scanStep, repairedCode, lastTruthy, ht1, hA1, haU]
  have e1 : scanStep key [pA1, pA2, pT, pB] ⟨[], [0], some a⟩ 1 =
      ⟨[], [0, 1], some a⟩ := by
    simp [scanStep, repairedCode, lastTruthy, ht2, hA2, haU, ha0]
  have e2 : scanStep key [pA1, pA2, pT, pB] ⟨[], [0, 1], some a⟩ 2 =
      ⟨[⟨some a, [0, 1], pA1.full_text⟩], [], none⟩ := by
    simp [scanStep, closeGroup, htT]
  have e3 : scanStep key [pA1, pA2, pT, pB]
      ⟨[⟨some a, [0, 1], pA1.full_text⟩], [], none⟩ 3 =
      ⟨[⟨some a, [0, 1], pA1.full_text⟩], [3], some b⟩ := by
    simp [scanStep, repairedCode, lastTruthy, htb, hB, hbU]
  have hrange : List.range ([pA1, pA2, pT, pB] : List PageInput).length =
      [0, 1, 2, 3] := rfl
  have hmain : scanFinalized [pA1, pA2, pT, pB] key =
      [⟨some a, [0, 1], pA1.full_text⟩, ⟨some b, [3], pB.full_text⟩] := by
    unfold scanFinalized
    rw [hrange]
    simp only [scanList]
    rw [e0, e1, e2, e3]
    simp [finalizeScan, lastTruthy, closeGroup, hb0]
  refine ⟨hmain, ?_⟩
  rw [hmain]
  simp [allPages]

/-- Witness for C4: concrete pages `APO`, `APO`, a `Grand Total`
trailer, `FPL` group as `[0,1]` under `APO` and `[3]` under `FPL`, the
trailer page in neither. -/
theorem trailer_isolation_witness :
    scanFinalized [⟨"a1 text", some "APO", AIOutcome.fail⟩,
      ⟨"a2 text", some "APO", AIOutcome.fail⟩,
      ⟨"sum Grand Total", none, AIOutcome.fail⟩,
      ⟨"b text", some "FPL", AIOutcome.fail⟩] "" =
      [⟨some "APO", [0, 1], "a1 text"⟩, ⟨some "FPL", [3], "b text"⟩] :=
  (trailer_isolation "" "APO" "FPL" _ _ _ _ (by decide) (by decide) (by decide)
    (by decide) (by decide) (by decide) (by decide) (by decide) (by decide)
    (by decide) (by decide)).1

/-- C7: the empty-input guard. Whenever the scan pass produces zero
groups, `process_pdf` still emits exactly one fallback group under the
catch-all code `"ALL"` spanning every page of the document, and (for a
non-empty document) the run still produces exactly that group's output
file rather than failing. -/
theorem empty_input_guard (doc : List PageInput) (key : String)
    (h : scanFinalized doc key = []) :
    emittedGroups doc key = [⟨some "ALL", List.range doc.length, ""⟩] ∧
    (doc ≠ [] →
      outputFiles doc key =
        [toOutputFile ⟨some "ALL", List.range doc.length, ""⟩]) := by
  have hg : emittedGroups doc key = [⟨some "ALL", List.range doc.length, ""⟩] := by
    unfold emittedGroups
    rw [h]
    rfl
  refine ⟨hg, fun hne => ?_⟩
  unfold outputFiles
  rw [hg]
  have hlen : doc.length ≠ 0 := fun h0 => hne (List.length_eq_zero.mp h0)
  have hre : (List.range doc.length).isEmpty = false := by
    cases hr : List.range doc.length with
    | nil => exact absurd (List.range_eq_nil.mp hr) hlen
    | cons x xs => rfl
  simp [List.filterMap_cons, hre, hne]

/-- Witness for C7: a document whose single page is a trailer produces
the one catch-all group covering that page and one output file. -/
theorem empty_input_guard_witness :
    emittedGroups [⟨"End of Report p1", none, AIOutcome.fail⟩] "" =
      [⟨some "ALL", List.range 1, ""⟩] ∧
    outputFiles [⟨"End of Report p1", none, AIOutcome.fail⟩] "" =
      [toOutputFile ⟨some "ALL", List.range 1, ""⟩] :=
  have h := empty_input_guard [⟨"End of Report p1", none, AIOutcome.fail⟩] ""
    (by decide)
  ⟨h.1, h.2 (by decide)⟩

/-- C8 counterexample: the claim says the sentinel `"UNKNOWN"` never
reaches the output, but when the AI reply parses to `{"code": ""}` on
one page (an empty-string code is falsy in Python, yet not `None`),
the next unresolved page escapes both continuity-repair branches and a
group — and hence an output file — carrying code `"UNKNOWN"` is
emitted. -/
theorem unknown_reaches_output_counterexample :
    (emittedGroups [⟨"page one", none, AIOutcome.parsed (some "")⟩,
        ⟨"page two", none, AIOutcome.fail⟩] "K").map RawGroup.code =
      [some "", some "UNKNOWN"] ∧
    (outputFiles [⟨"page one", none, AIOutcome.parsed (some "")⟩,
        ⟨"page two", none, AIOutcome.fail⟩] "K").map OutputFile.code =
      [some "", some "UNKNOWN"] := by decide

/-- Invariant carried through the scan for C8 (amended): no closed
group carries the sentinel code, and the running `last_code` is either
absent or a non-empty, non-sentinel string. -/
def noUnknownState (s : ScanState) : Prop :=
  (∀ g ∈ s.page_groups, g.code ≠ some "UNKNOWN") ∧
  (s.last_code = none ∨
    ∃ c, s.last_code = some c ∧ c ≠ "" ∧ c ≠ "UNKNOWN")

theorem repairedCode_good (key : String) (page : PageInput) (last : Option String)
    (hp : resolverCode page key ≠ "")
    (hl : last = none ∨ ∃ c, last = some c ∧ c ≠ "" ∧ c ≠ "UNKNOWN") :
    repairedCode key page last ≠ "" ∧ repairedCode key page last ≠ "UNKNOWN" := by
  unfold repairedCode
  by_cases h0 : resolverCode page key = "UNKNOWN"
  · rcases hl with hn | ⟨c, hc, hc0, hcU⟩
    · subst hn
      simp [lastTruthy, h0]
    · subst hc
      simp [lastTruthy, h0, hc0, hcU]
  · rcases hl with hn | ⟨c, hc, hc0, hcU⟩
    · subst hn
      simp [lastTruthy, h0]
      exact hp
    · subst hc
      simp [lastTruthy, h0]
      exact hp

theorem scanStep_noUnknown (key : String) (doc : List PageInput) (s : ScanState)
    (i : Nat) (hp : resolverCode (doc.getD i defaultPage) key ≠ "")
    (hs : noUnknownState s) : noUnknownState (scanStep key doc s i) := by
  obtain ⟨hgs, hls⟩ := hs
  have hlast : s.last_code ≠ some "UNKNOWN" := by
    rcases hls with hn | ⟨c, hc, _, hcU⟩
    · rw [hn]; simp
    · rw [hc]; intro hx; exact hcU (Option.some.inj hx)
  unfold scanStep
  by_cases ht : isTrailerText (doc.getD i defaultPage).full_text = true
  · rw [if_pos ht]
    by_cases hc : s.current_group.isEmpty = true
    · rw [if_pos hc]; exact ⟨hgs, hls⟩
    · rw [if_neg hc]
      refine ⟨?_, Or.inl rfl⟩
      intro g hg
      rcases List.mem_append.mp hg with hmem | hmem
      · exact hgs g hmem
      · rw [List.mem_singleton.mp hmem]
        simpa [closeGroup] using hlast
  · rw [if_neg ht]
    simp only
    obtain ⟨hr0, hrU⟩ :=
      repairedCode_good key (doc.getD i defaultPage) s.last_code hp hls
    by_cases htr : some (repairedCode key (doc.getD i defaultPage) s.last_code) ≠
        s.last_code
    · rw [if_pos htr]
      refine ⟨?_, Or.inr ⟨_, rfl, hr0, hrU⟩⟩
      intro g hg
      by_cases hc : s.current_group.isEmpty = true
      · rw [if_pos hc] at hg
        exact hgs g hg
      · rw [if_neg hc] at hg
        rcases List.mem_append.mp hg with hmem | hmem
        · exact hgs g hmem
        · rw [List.mem_singleton.mp hmem]
          simpa [closeGroup] using hlast
    · rw [if_neg htr]
      exact ⟨hgs, hls⟩

theorem scanList_noUnknown (key : String) (doc : List PageInput) :
    ∀ (l : List Nat) (s : ScanState),
      (∀ i ∈ l, resolverCode (doc.getD i defaultPage) key ≠ "") →
      noUnknownState s → noUnknownState (scanList key doc l s)
  | [], _, _, hs => hs
  | i :: rest, s, hp, hs =>
    scanList_noUnknown key doc rest (scanStep key doc s i)
      (fun j hj => hp j (List.mem_cons_of_mem i hj))
      (scanStep_noUnknown key doc s i (hp i (List.mem_cons_self i rest)) hs)

theorem finalizeScan_noUnknown (doc : List PageInput) (s : ScanState)
    (hs : noUnknownState s) :
    ∀ g ∈ finalizeScan doc s, g.code ≠ some "UNKNOWN" := by
  obtain ⟨hgs, hls⟩ := hs
  unfold finalizeScan
  by_cases hc : s.current_group.isEmpty = true
  · rw [if_pos hc]; exact hgs
  · rw [if_neg hc]
    intro g hg
    rcases List.mem_append.mp hg with hmem | hmem
    · exact hgs g hmem
    · rw [List.mem_singleton.mp hmem]
      simp only [closeGroup, ne_eq, Option.some.injEq]
      intro hfin
      rcases hls with hn | ⟨c, hcv, hc0, hcU⟩
      · rw [hn] at hfin
        simp [lastTruthy] at hfin
      · rw [hcv] at hfin
        simp [lastTruthy, hc0] at hfin
        exact hcU hfin

theorem resolver_getD_ne_empty (doc : List PageInput) (key : String)
    (h : ∀ p ∈ doc, resolverCode p key ≠ "") (i : Nat) :
    resolverCode (doc.getD i defaultPage) key ≠ "" := by
  by_cases hi : i < doc.length
  · have hd : doc.getD i defaultPage = doc[i] := by
      rw [List.getD_eq_getElem?_getD, List.getElem?_eq_getElem hi]
      rfl
    rw [hd]
    exact h _ (List.getElem_mem hi)
  · have hd : doc.getD i defaultPage = defaultPage := by
      rw [List.getD_eq_getElem?_getD, List.getElem?_eq_none (Nat.le_of_not_lt hi)]
      rfl
    rw [hd]
    have : resolverCode defaultPage key = "UNKNOWN" := by
      by_cases hk : key = "" <;>
        simp [resolverCode, extract_code_hybrid, extract_code_by_rule,
          defaultPage, aiFallback, hk]
    rw [this]
    decide

/-- C8 (amended): provided the resolver never returns the empty string
on a page of the document — in particular whenever the AI backend never
answers with an empty `code` — no emitted group, and hence no output
file, carries the sentinel code `"UNKNOWN"`. (The counterexample shows
the proviso is necessary: an empty-string AI code breaks both
continuity-repair guards on the following page.) -/
theorem unknown_not_in_output (doc : List PageInput) (key : String)
    (h : ∀ p ∈ doc, resolverCode p key ≠ "") :
    (∀ g ∈ emittedGroups doc key, g.code ≠ some "UNKNOWN") ∧
    (∀ f ∈ outputFiles doc key, f.code ≠ some "UNKNOWN") := by
  have hgroups : ∀ g ∈ emittedGroups doc key, g.code ≠ some "UNKNOWN" := by
    intro g hg
    unfold emittedGroups at hg
    by_cases hge : (scanFinalized doc key).isEmpty = true
    · rw [if_pos hge] at hg
      rw [List.mem_singleton.mp hg]
      simp
    · rw [if_neg hge] at hg
      have hst : noUnknownState (scanList key doc (List.range doc.length)
          ⟨[], [], none⟩) :=
        scanList_noUnknown key doc (List.range doc.length) ⟨[], [], none⟩
          (fun i _ => resolver_getD_ne_empty doc key h i)
          ⟨by intro g hgm; exact absurd hgm (List.not_mem_nil g), Or.inl rfl⟩
      exact finalizeScan_noUnknown doc _ hst g hg
  refine ⟨hgroups, fun f hf => ?_⟩
  unfold outputFiles at hf
  rcases List.mem_filterMap.mp hf with ⟨g, hgm, hgf⟩
  by_cases hge : g.pages.isEmpty = true
  · rw [if_pos hge] at hgf
    exact absurd hgf (by simp)
  · rw [if_neg hge] at hgf
    have : f = toOutputFile g := (Option.some.inj hgf).symm
    rw [this]
    simpa [toOutputFile] using hgroups g hgm

/-- Witness for C8 (amended) on a one-page `APO` document with no
credential: the emitted group and the output file do not carry the
sentinel. -/
theorem unknown_not_in_output_witness :
    RawGroup.code ⟨some "APO", [0], "a text"⟩ ≠ some "UNKNOWN" :=
  (unknown_not_in_output [⟨"a text", some "APO", AIOutcome.fail⟩] ""
      (by decide)).1
    ⟨some "APO", [0], "a text"⟩ (by decide)

end App
